import Mathlib

/-!
Verification of the pyLRT `RadTran` module (src/pyLRT/RadTran.py).

Modeling conventions, applied throughout:

* Python `str` values are modeled as `List Char`; the helper functions
  `pyStartsWith`, `pyStrip`, `pySplitOnChar`, `pyReplace`, `pyInt?`, `pyFloat?`
  below model the corresponding `str` methods and conversions used by the
  source, restricted to the inputs the source feeds them.
* Python floats are idealized as exact rationals (`ℚ`).  CPython formats and
  compares the stored double exactly, so fixed-point formatting is modeled as
  exact round-half-to-even on the rational value.
* Because the library's `Rat.add/sub/mul/inv` are irreducible (which blocks
  kernel evaluation of concrete instances), the embedding performs rational
  arithmetic through the `mkRat`-based helpers `qmul`, `qsub`, `pow10`,
  each certified equal to the standard operation by a lemma proved next to it.
* A text stream read with `readline` is modeled as the list of its lines
  (`List (List Char)`); `readline` at end of stream yields the empty string,
  as in Python.
* Fallible Python code (exceptions) is modeled with `Except`/`Option`.
-/

/-- Model of Python `line.startswith(pre)`. -/
def pyStartsWith (line pre : List Char) : Bool :=
  pre.isPrefixOf line

/-- Model of Python `s.strip()` (whitespace removed from both ends). -/
def pyStrip (s : List Char) : List Char :=
  ((s.dropWhile Char.isWhitespace).reverse.dropWhile Char.isWhitespace).reverse

/-- Helper for `pySplitOnChar`: accumulates the current field (reversed). -/
def pySplitOnCharAux (sep : Char) : List Char → List Char → List (List Char)
  | [], acc => [acc.reverse]
  | c :: cs, acc =>
    if c == sep then acc.reverse :: pySplitOnCharAux sep cs []
    else pySplitOnCharAux sep cs (c :: acc)

/-- Model of Python `s.split(sep)` for a one-character separator: splits at
every occurrence, keeping empty fields. -/
def pySplitOnChar (sep : Char) (s : List Char) : List (List Char) :=
  pySplitOnCharAux sep s []

/-- Fuel-driven worker for `pyReplace`; the fuel starts at the length of the
string, which suffices because every step consumes at least one character. -/
def pyReplaceAux (pat rep : List Char) : ℕ → List Char → List Char
  | _, [] => []
  | 0, s => s
  | Nat.succ fuel, c :: cs =>
    if pat.isPrefixOf (c :: cs) then rep ++ pyReplaceAux pat rep fuel ((c :: cs).drop pat.length)
    else c :: pyReplaceAux pat rep fuel cs

/-- Model of Python `s.replace(pat, rep)` for a non-empty pattern. -/
def pyReplace (s pat rep : List Char) : List Char :=
  pyReplaceAux pat rep s.length s

/-- Numeric value of a list of decimal digit characters (most significant
first), as read by Python `int`/`float`. -/
def digitsVal (cs : List Char) : ℕ :=
  cs.foldl (fun a c => a * 10 + (c.toNat - 48)) 0

/-- Model of Python `int(s)` on a stripped string: an optional sign followed
by at least one decimal digit; anything else raises `ValueError` (`none`). -/
def pyInt? (s : List Char) : Option ℤ :=
  match s with
  | '-' :: rest =>
    if rest ≠ [] ∧ rest.all Char.isDigit then some (-(digitsVal rest : ℤ)) else none
  | '+' :: rest =>
    if rest ≠ [] ∧ rest.all Char.isDigit then some ((digitsVal rest : ℤ)) else none
  | _ =>
    if s ≠ [] ∧ s.all Char.isDigit then some ((digitsVal s : ℤ)) else none

/-- Value of an unsigned fixed-point literal `ip.fp` as an exact rational. -/
def fixedPointVal (ip fp : List Char) : ℚ :=
  mkRat ((digitsVal ip : ℤ) * 10 ^ fp.length + (digitsVal fp : ℤ)) (10 ^ fp.length)

/-- Unsigned part of `pyFloat?`: digits, optionally a dot and more digits. -/
def pyFloatUnsigned? (t : List Char) : Option ℚ :=
  let ip := t.takeWhile Char.isDigit
  match t.dropWhile Char.isDigit with
  | [] => if ip = [] then none else some (fixedPointVal ip [])
  | '.' :: r =>
    let fp := r.takeWhile Char.isDigit
    if r.dropWhile Char.isDigit = [] ∧ (ip ≠ [] ∨ fp ≠ []) then
      some (fixedPointVal ip fp)
    else none
  | _ => none

/-- Model of Python `float(s)` restricted to the plain fixed-point literals
(optionally signed, no exponent) that appear in the uvspec verbose stream;
anything else raises `ValueError` (`none`). -/
def pyFloat? (s : List Char) : Option ℚ :=
  match s with
  | '-' :: rest => (pyFloatUnsigned? rest).map (fun q => -q)
  | '+' :: rest => pyFloatUnsigned? rest
  | _ => pyFloatUnsigned? s

/-- Kernel-computable product of two rationals (the library `Rat.mul` is
irreducible); certified by `qmul_eq`. -/
def qmul (a b : ℚ) : ℚ :=
  mkRat (a.num * b.num) (a.den * b.den)

/-- Kernel-computable difference of two rationals; certified by `qsub_eq`. -/
def qsub (a b : ℚ) : ℚ :=
  mkRat (a.num * b.den - b.num * a.den) (a.den * b.den)

/-- Kernel-computable integer power of ten in `ℚ`; certified by `pow10_eq`. -/
def pow10 (k : ℤ) : ℚ :=
  if 0 ≤ k then mkRat (10 ^ k.toNat) 1 else mkRat 1 (10 ^ (-k).toNat)

theorem qmul_eq (a b : ℚ) : qmul a b = a * b := by
  rw [qmul, Rat.mkRat_eq_div]
  push_cast
  rw [← div_mul_div_comm, Rat.num_div_den, Rat.num_div_den]

theorem qsub_eq (a b : ℚ) : qsub a b = a - b := by
  rw [qsub, Rat.mkRat_eq_div]
  push_cast
  rw [mul_comm ((b.num : ℚ)) ((a.den : ℚ)),
    ← div_sub_div _ _ (by exact_mod_cast a.den_nz) (by exact_mod_cast b.den_nz),
    Rat.num_div_den, Rat.num_div_den]

theorem pow10_eq (k : ℤ) : pow10 k = (10 : ℚ) ^ k := by
  rw [pow10]
  split
  · rename_i h
    rw [Rat.mkRat_eq_div]
    push_cast
    rw [div_one, ← zpow_natCast ((10 : ℚ)) k.toNat, Int.toNat_of_nonneg h]
  · rename_i h
    rw [Rat.mkRat_eq_div]
    push_cast
    rw [← zpow_natCast ((10 : ℚ)) (-k).toNat,
      Int.toNat_of_nonneg (by omega : (0 : ℤ) ≤ -k), one_div, ← zpow_neg, neg_neg]

/-- Decimal digit character, as Python renders the digits 0-9 (only ever
applied to values below 10; larger values fall through to the last case). -/
def digitChar (d : ℕ) : Char :=
  match d with
  | 0 => '0' | 1 => '1' | 2 => '2' | 3 => '3' | 4 => '4'
  | 5 => '5' | 6 => '6' | 7 => '7' | 8 => '8' | _ => '9'

/-- Fuel-driven worker producing the decimal digits of a natural number,
most significant first; `natDigits` supplies sufficient fuel. -/
def natDigitsAux : ℕ → ℕ → List Char
  | 0, _ => []
  | Nat.succ fuel, n =>
    if n < 10 then [digitChar n]
    else natDigitsAux fuel (n / 10) ++ [digitChar (n % 10)]

/-- Decimal digit string of a natural number, as Python prints it. -/
def natDigits (n : ℕ) : List Char :=
  natDigitsAux (n + 1) n

/-- Number of decimal digits of a natural number. -/
def digitLen (n : ℕ) : ℕ :=
  (natDigits n).length

theorem digitChar_ne_dot (d : ℕ) : digitChar d ≠ '.' := by
  rcases d with _ | _ | _ | _ | _ | _ | _ | _ | _ | d
  all_goals first
  | decide
  | (show ('9' : Char) ≠ '.'
     decide)

theorem natDigitsAux_ne_nil (fuel n : ℕ) (h : 0 < fuel) : natDigitsAux fuel n ≠ [] := by
  cases fuel with
  | zero => omega
  | succ fuel =>
    rw [natDigitsAux]
    split
    · simp
    · simp

theorem natDigits_ne_nil (n : ℕ) : natDigits n ≠ [] :=
  natDigitsAux_ne_nil (n + 1) n (by omega)

theorem natDigitsAux_mem_ne_dot (fuel : ℕ) :
    ∀ n c, c ∈ natDigitsAux fuel n → c ≠ '.' := by
  induction fuel with
  | zero => intro n c hc; simp [natDigitsAux] at hc
  | succ fuel ih =>
    intro n c hc
    rw [natDigitsAux] at hc
    split at hc
    · simp at hc
      subst hc
      exact digitChar_ne_dot n
    · rcases List.mem_append.mp hc with h | h
      · exact ih _ _ h
      · simp at h
        subst h
        exact digitChar_ne_dot (n % 10)

theorem natDigits_mem_ne_dot (n : ℕ) : ∀ c ∈ natDigits n, c ≠ '.' :=
  fun c hc => natDigitsAux_mem_ne_dot (n + 1) n c hc

theorem natDigitsAux_bounds (fuel : ℕ) :
    ∀ n, n < fuel → 1 ≤ n →
      10 ^ ((natDigitsAux fuel n).length - 1) ≤ n ∧ n < 10 ^ (natDigitsAux fuel n).length := by
  induction fuel with
  | zero => intro n h; omega
  | succ fuel ih =>
    intro n hn h1
    rw [natDigitsAux]
    split
    · rename_i hlt
      simp only [List.length_singleton]
      omega
    · rename_i hge
      have hge10 : 10 ≤ n := by omega
      have hdivlt : n / 10 < fuel := by
        have : n / 10 < n := Nat.div_lt_self (by omega) (by omega)
        omega
      have hdiv1 : 1 ≤ n / 10 := by
        rw [Nat.le_div_iff_mul_le (by omega)]
        omega
      obtain ⟨hlo, hhi⟩ := ih (n / 10) hdivlt hdiv1
      have hLpos : 1 ≤ (natDigitsAux fuel (n / 10)).length :=
        List.length_pos.mpr (natDigitsAux_ne_nil fuel (n / 10) (by omega))
      set L := (natDigitsAux fuel (n / 10)).length with hL
      constructor
      · have h10 : 10 ^ (L - 1) * 10 ≤ n := by
          rw [← Nat.le_div_iff_mul_le (by omega)]
          exact hlo
        have hpow : 10 ^ (L - 1) * 10 = 10 ^ L := by
          rw [← pow_succ]
          congr 1
          omega
        rw [List.length_append, List.length_singleton]
        have : L + 1 - 1 = L := by omega
        rw [this, ← hpow]
        exact h10
      · rw [List.length_append, List.length_singleton]
        have := (Nat.div_lt_iff_lt_mul (show 0 < 10 by omega)).mp hhi
        calc n < 10 ^ L * 10 := this
        _ = 10 ^ (L + 1) := by rw [pow_succ]

theorem digitLen_bounds (n : ℕ) (h : 1 ≤ n) :
    10 ^ (digitLen n - 1) ≤ n ∧ n < 10 ^ digitLen n :=
  natDigitsAux_bounds (n + 1) n (by omega) h

/-- Fuel-driven worker for `negExp10`: counts how many times a positive
rational below one must be multiplied by ten before reaching one. -/
def negExpAux : ℕ → ℚ → ℕ
  | 0, _ => 0
  | Nat.succ fuel, v => if 1 ≤ v then 0 else 1 + negExpAux fuel (qmul (mkRat 10 1) v)

/-- For `0 < v`, the least `k` with `1 ≤ 10 ^ k * v` (the fuel for the worker
is sufficient because the denominator of `v` is below `10 ^ digitLen v.den`). -/
def negExp10 (v : ℚ) : ℕ :=
  negExpAux (digitLen v.den) v

/-- Exact value of `floor(log10 v)` for `0 < v`, the quantity computed by
`int(np.floor(np.log10(value)))` in `_autoformat` (floats idealized as exact
reals); certified by `floorLog10_spec`. -/
def floorLog10 (v : ℚ) : ℤ :=
  if 1 ≤ v then (digitLen (⌊v⌋).toNat : ℤ) - 1 else -(negExp10 v : ℤ)

theorem mkRat_one_den (n : ℤ) : mkRat n 1 = (n : ℚ) := by
  rw [Rat.mkRat_eq_div]
  norm_num

theorem negExpAux_spec (fuel : ℕ) :
    ∀ v : ℚ, 0 < v → 1 ≤ 10 ^ fuel * v →
      1 ≤ 10 ^ negExpAux fuel v * v ∧ ∀ j < negExpAux fuel v, 10 ^ j * v < 1 := by
  induction fuel with
  | zero =>
    intro v hv h
    rw [negExpAux]
    constructor
    · simpa using h
    · omega
  | succ fuel ih =>
    intro v hv h
    rw [negExpAux]
    split
    · rename_i h1
      refine ⟨by simpa using h1, ?_⟩
      omega
    · rename_i h1
      rw [qmul_eq, mkRat_one_den]
      push_cast
      have hv10 : (0 : ℚ) < 10 * v := by linarith
      have hpre : 1 ≤ 10 ^ fuel * (10 * v) := by
        calc (1 : ℚ) ≤ 10 ^ (fuel + 1) * v := h
        _ = 10 ^ fuel * (10 * v) := by ring
      obtain ⟨hge, hlt⟩ := ih (10 * v) hv10 hpre
      constructor
      · calc (1 : ℚ) ≤ 10 ^ negExpAux fuel (10 * v) * (10 * v) := hge
        _ = 10 ^ (1 + negExpAux fuel (10 * v)) * v := by ring
      · intro j hj
        cases j with
        | zero =>
          simpa using (lt_of_not_le h1)
        | succ j =>
          have : 10 ^ j * (10 * v) < 1 := hlt j (by omega)
          calc 10 ^ (j + 1) * v = 10 ^ j * (10 * v) := by ring
          _ < 1 := this

theorem negExp10_spec (v : ℚ) (hv : 0 < v) :
    1 ≤ 10 ^ negExp10 v * v ∧ ∀ j < negExp10 v, 10 ^ j * v < 1 := by
  have hden1 : 1 ≤ v.den := v.den_pos
  have hdenlt : v.den < 10 ^ digitLen v.den := (digitLen_bounds v.den hden1).2
  have hnum1 : 1 ≤ v.num := Rat.num_pos.mpr hv
  have hpre : 1 ≤ 10 ^ digitLen v.den * v := by
    have hdenpos : (0 : ℚ) < (v.den : ℚ) := by exact_mod_cast v.den_pos
    have h2 : 1 ≤ v * (v.den : ℚ) := by
      have hmul := congrArg (fun x : ℚ => x * ((v.den : ℚ))) (Rat.num_div_den v)
      simp only [div_mul_cancel₀ _ (ne_of_gt hdenpos)] at hmul
      rw [← hmul]
      exact_mod_cast hnum1
    calc (1 : ℚ) ≤ v * (v.den : ℚ) := h2
    _ ≤ v * (10 : ℚ) ^ digitLen v.den := by
          have hle : ((v.den : ℚ)) ≤ (10 : ℚ) ^ digitLen v.den := by
            exact_mod_cast le_of_lt hdenlt
          exact mul_le_mul_of_nonneg_left hle (le_of_lt hv)
    _ = 10 ^ digitLen v.den * v := by ring
  exact negExpAux_spec (digitLen v.den) v hv hpre

/-- Certification that `floorLog10` is the floor of the base-ten logarithm:
`10 ^ floorLog10 v ≤ v < 10 ^ (floorLog10 v + 1)` for every positive `v`. -/
theorem floorLog10_spec (v : ℚ) (hv : 0 < v) :
    (10 : ℚ) ^ floorLog10 v ≤ v ∧ v < (10 : ℚ) ^ (floorLog10 v + 1) := by
  rw [floorLog10]
  split
  · rename_i h1
    have hfl1 : 1 ≤ ⌊v⌋ := Int.le_floor.mpr (by exact_mod_cast h1)
    set n := (⌊v⌋).toNat with hn
    have hn1 : 1 ≤ n := by omega
    obtain ⟨hlo, hhi⟩ := digitLen_bounds n hn1
    have hd1 : 1 ≤ digitLen n := by
      have := List.length_pos.mpr (natDigits_ne_nil n)
      exact this
    have hcast : ((n : ℚ)) ≤ v := by
      have : ((⌊v⌋ : ℚ)) ≤ v := Int.floor_le v
      rw [hn]
      rwa [show (((⌊v⌋).toNat : ℚ)) = ((⌊v⌋ : ℚ)) by exact_mod_cast Int.toNat_of_nonneg (by omega)]
    constructor
    · have hz : ((digitLen n : ℤ) - 1) = ((digitLen n - 1 : ℕ) : ℤ) := by omega
      rw [hz, zpow_natCast]
      calc (10 : ℚ) ^ (digitLen n - 1) ≤ ((n : ℚ)) := by exact_mod_cast hlo
      _ ≤ v := hcast
    · have hz : ((digitLen n : ℤ) - 1 + 1) = ((digitLen n : ℕ) : ℤ) := by omega
      rw [hz, zpow_natCast]
      have hvlt : v < ((⌊v⌋ : ℚ)) + 1 := Int.lt_floor_add_one v
      have hfn : ((⌊v⌋ : ℚ)) + 1 = ((n : ℚ)) + 1 := by
        rw [hn]
        norm_cast
        omega
      rw [hfn] at hvlt
      have : ((n : ℚ)) + 1 ≤ (10 : ℚ) ^ digitLen n := by
        exact_mod_cast Nat.succ_le_of_lt hhi
      linarith
  · rename_i h1
    obtain ⟨hge, hlt⟩ := negExp10_spec v hv
    set k := negExp10 v with hk
    have hkpos : 1 ≤ k := by
      rcases Nat.eq_zero_or_pos k with h0 | h
      · rw [h0] at hge
        simp at hge
        exact absurd hge h1
      · exact h
    have hp : (0 : ℚ) < (10 : ℚ) ^ k := by positivity
    constructor
    · rw [zpow_neg, zpow_natCast, inv_eq_one_div, div_le_iff₀ hp]
      linarith [hge]
    · have hz : (-(k : ℤ) + 1) = -((k - 1 : ℕ) : ℤ) := by omega
      rw [hz, zpow_neg, zpow_natCast]
      have hp1 : (0 : ℚ) < (10 : ℚ) ^ (k - 1) := by positivity
      rw [lt_inv_comm₀ hv hp1]
      have := hlt (k - 1) (by omega)
      rw [inv_eq_one_div, lt_div_iff₀ hv]
      linarith [this]

/-- Round-half-to-even of a rational to an integer, the rounding CPython's
fixed-point formatting performs (on the exactly-represented double). -/
def roundHalfEven (x : ℚ) : ℤ :=
  let f := ⌊x⌋
  let frac := qsub x (mkRat f 1)
  if frac < mkRat 1 2 then f
  else if mkRat 1 2 < frac then f + 1
  else if f % 2 = 0 then f else f + 1

/-- Left-pads a digit string with zeros to width `n`, as the fractional part
of CPython's fixed-point rendering is zero-padded. -/
def padZeros (n : ℕ) (ds : List Char) : List Char :=
  List.replicate (n - ds.length) '0' ++ ds

/-- Model of CPython `'{:.nf}'.format(v)`: round-half-even to `n` decimals;
no decimal point when `n = 0`; the sign comes from the value itself. -/
def pyFormatFixed (v : ℚ) (n : ℕ) : List Char :=
  let m := (roundHalfEven (qmul |v| (mkRat (10 ^ n) 1))).toNat
  let body :=
    if n = 0 then natDigits m
    else natDigits (m / 10 ^ n) ++ '.' :: padZeros n (natDigits (m % 10 ^ n))
  if v < 0 then '-' :: body else body

/-- Model of Python `s.split(".")[0]`: the prefix before the first dot. -/
def pySplitDot (s : List Char) : List Char :=
  s.takeWhile (fun c => !(c == '.'))

/-- The fatal error raised by `_autoformat` (`RuntimeError("Result too long!")`). -/
inductive FormatError where
  | resultTooLong
deriving DecidableEq

instance {ε α : Type} [DecidableEq ε] [DecidableEq α] : DecidableEq (Except ε α) :=
  fun a b =>
    match a, b with
    | .ok x, .ok y =>
      match decEq x y with
      | isTrue h => isTrue (by rw [h])
      | isFalse h => isFalse (by intro hc; cases hc; exact h rfl)
    | .ok _, .error _ => isFalse (by intro hc; cases hc)
    | .error _, .ok _ => isFalse (by intro hc; cases hc)
    | .error x, .error y =>
      match decEq x y with
      | isTrue h => isTrue (by rw [h])
      | isFalse h => isFalse (by intro hc; cases hc; exact h rfl)

/-- Outcome of `_autoformat`: the warnings it emitted through `warnings.warn`,
and either the returned string or the fatal `RuntimeError`. -/
structure FormatOutcome where
  warnings : List (List Char)
  result : Except FormatError (List Char)
deriving DecidableEq

/-- The `value_sig_figs` quantity of `_autoformat` (RadTran.py lines 187-190):
`int(np.floor(np.log10(value))) + 1` for positive values, otherwise 1. -/
def value_sig_figs (value : ℚ) : ℤ :=
  if 0 < value then floorLog10 value + 1 else 1

/-- The clamping stage of `_autoformat` (RadTran.py lines 183-200): produces
the emitted warnings, the (possibly clamped) value, and `intchars`. -/
def autoformatCore (value : ℚ) (maxchar : ℕ) (require_point : Bool) :
    List (List Char) × ℚ × ℤ :=
  let maxint : ℤ := if require_point then (maxchar : ℤ) - 2 else (maxchar : ℤ)
  let sig := value_sig_figs value
  if sig > maxint then
    ([("Value too large to format".data)], (qsub (pow10 maxint) 1, maxint))
  else if sig ≤ 2 - (maxchar : ℤ) then
    ([("Value too small to format".data)], (pow10 (2 - (maxchar : ℤ)), 1))
  else
    ([], (value, if sig ≥ 1 then sig else 1))

/-- The rendering stage of `_autoformat` (RadTran.py lines 201-207): fixed
decimal places when `intchars` leaves room, otherwise the integer rendering
with everything after the dot discarded, then the `".0"` suffix when a point
is required but absent. -/
def renderValue (value : ℚ) (intchars : ℤ) (maxchar : ℕ) (require_point : Bool) :
    List Char :=
  let value_str :=
    if intchars < (maxchar : ℤ) - 2 then
      pyFormatFixed value (((maxchar : ℤ) - intchars - 1).toNat)
    else
      pySplitDot (pyFormatFixed value 0)
  if require_point && !(value_str.contains '.') then value_str ++ (".0".data)
  else value_str

/-- Model of `_autoformat` (RadTran.py lines 181-210): clamp, render, then the
final length guard raising `RuntimeError("Result too long!")`. -/
def autoformat (value : ℚ) (maxchar : ℕ := 7) (require_point : Bool := true) :
    FormatOutcome :=
  let c := autoformatCore value maxchar require_point
  let s := renderValue c.2.1 c.2.2 maxchar require_point
  { warnings := c.1,
    result := if s.length > maxchar then .error .resultTooLong else .ok s }

example : (autoformat (mkRat 2469 200) 7 true).result = .ok ("12.3450".data) := by decide
example : (autoformat (mkRat 61728 5) 7 true).result = .ok ("12346.0".data) := by decide
example : (autoformat (123456 : ℚ) 7 true) =
    ⟨[("Value too large to format".data)], .ok ("99999.0".data)⟩ := by decide
example : (autoformat (mkRat 1 1000000) 7 true) =
    ⟨[("Value too small to format".data)], .ok ("0.00001".data)⟩ := by decide
example : (autoformat (mkRat (-1) 2) 7 true).result = .error .resultTooLong := by decide

/-- The liquid-cloud profile stored in `self.cloud` by `add_cloud`
(RadTran.py lines 136-141); the second content entry can be Python `None`
when no water content was supplied, hence `Option`. -/
structure LiquidCloud where
  z : List ℚ
  lwc : List (Option ℚ)
  re : List ℚ
deriving DecidableEq

/-- The ice-cloud profile stored in `self.ice_cloud` by `add_cloud`
(RadTran.py lines 142-147). -/
structure IceCloud where
  z : List ℚ
  iwc : List (Option ℚ)
  re : List ℚ
deriving DecidableEq

/-- Model of `RadTran.add_cloud` (RadTran.py lines 110-147).  The method
mutates `self.cloud` / `self.ice_cloud`; the model returns the pair of
updates (`none` = attribute left untouched), or the `ValueError` message. -/
def add_cloud (type : String) (height base_height thickness lwc iwc re od : Option ℚ) :
    Except String (Option LiquidCloud × Option IceCloud) :=
  match height with
  | none => .error ("height must be provided")
  | some h =>
    match (match base_height with
           | some b => Except.ok b
           | none =>
             match thickness with
             | none => Except.error ("thickness must be provided")
             | some t => Except.ok (h - t) : Except String ℚ) with
    | .error e => .error e
    | .ok bh =>
      match re with
      | none => .error ("re must be provided")
      | some r =>
        let ty := if lwc.isSome then ("liquid") else type
        let ty := if iwc.isSome then ("ice") else ty
        let cw :=
          match od with
          | none => (lwc, iwc)
          | some o =>
            let cwp := 2 / 3 * o * r * (1 / 1000)
            if ty = "liquid" then (some cwp, iwc)
            else if ty = "ice" then (lwc, some cwp)
            else (lwc, iwc)
        let newCloud : Option LiquidCloud :=
          if ty = "liquid" then some ⟨[h, bh], [some 0, cw.1], [0, r]⟩ else none
        let newIceCloud : Option IceCloud :=
          if ty = "ice" then some ⟨[h, bh], [some 0, cw.2], [0, r]⟩ else none
        .ok (newCloud, newIceCloud)

/-- Model of a Python `dict[str, str]` as an insertion-ordered association
list (unique keys when built through these operations). -/
def dictSet (d : List (String × String)) (k v : String) : List (String × String) :=
  if d.any (fun p => p.1 = k) then d.map (fun p => if p.1 = k then (p.1, v) else p)
  else d ++ [(k, v)]

/-- Model of Python `del d[k]` (and of `del` inside `try/except: pass`,
which is a no-op when the key is absent). -/
def dictDel (d : List (String × String)) (k : String) : List (String × String) :=
  d.filter (fun p => !(p.1 = k : Bool))

/-- Model of Python `d.get(k)` / key lookup. -/
def dictGet? (d : List (String × String)) (k : String) : Option String :=
  (d.find? (fun p => p.1 = k)).map (fun p => p.2)

/-- The net effect on `self.options` of a successful `RadTran.run` call with
`verbose=True` (RadTran.py lines 35-45, 61-66, 99-104): the cloud-file keys
are set by `_cloud_input` (lines 157/166) and removed after the subprocess
(lines 61-66); `quiet` is dropped and `verbose` set before the run (lines
40-45); after the error check succeeds, `verbose` is dropped and `quiet` set
to the empty string (lines 99-104). -/
def runOptionsVerbose (opts : List (String × String)) (hasCloud hasIce : Bool)
    (wcName icName : String) : List (String × String) :=
  let o := if hasCloud then dictSet opts ("wc_file 1D") wcName else opts
  let o := if hasIce then dictSet o ("ic_file 1D") icName else o
  let o := dictDel o ("quiet")
  let o := dictSet o ("verbose") ("")
  let o := if hasCloud then dictDel o ("wc_file 1D") else o
  let o := if hasIce then dictDel o ("ic_file 1D") else o
  let o := dictDel o ("verbose")
  let o := dictSet o ("quiet") ("")
  o

/-- Model of Python `''.join(parts)`. -/
def pyJoin (parts : List (List Char)) : List Char :=
  parts.foldl (fun a b => a ++ b) []

/-- One iteration of the error-capture loop over stderr in `RadTran.run`
(RadTran.py lines 87-91): a line starting with `Error` raises the flag, and
while the flag is up every line is appended to the collected error text. -/
def stderrStep (acc : List (List Char) × Bool) (line : List Char) :
    List (List Char) × Bool :=
  let flag := acc.2 || pyStartsWith line ("Error".data)
  (if flag then acc.1 ++ [line] else acc.1, flag)

/-- The error-capture loop over stderr in `RadTran.run` (RadTran.py lines
85-91): the collected `error` list (seeded with the banner) and the
`error_flag`. -/
def scanStderr (lines : List (List Char)) : List (List Char) × Bool :=
  lines.foldl stderrStep ([("UVSpec Error Message:\n".data)], false)

/-- Model of the stderr error check of `RadTran.run` (RadTran.py lines
84-94): if any line starts with `Error`, the run raises `ValueError` with the
banner plus every line from there on; otherwise it continues normally. -/
def checkStderr (lines : List (List Char)) : Except (List Char) Unit :=
  let s := scanStderr lines
  if s.2 then .error (pyJoin s.1) else .ok ()

example :
    checkStderr [("x\n".data), ("Error: bad altitude\n".data), ("more\n".data)] =
      .error (("UVSpec Error Message:\nError: bad altitude\nmore\n".data)) := by decide
example : checkStderr [("fine\n".data)] = .ok () := by decide

/-- Model of `f.readline()` on the list of remaining lines; at end of stream
Python returns the empty string. -/
def readline (f : List (List Char)) : List Char × List (List Char) :=
  match f with
  | [] => ([], [])
  | l :: ls => (l, ls)

/-- Model of `_skiplines` (RadTran.py lines 212-215). -/
def skiplines (f : List (List Char)) : ℕ → List (List Char)
  | 0 => f
  | Nat.succ n => skiplines (readline f).2 n

/-- Worker for `skiplines_title`, tracking the running index `i`; on the
iteration with `i = t` it reads the title line (stripped, split on `|`,
fields stripped) and then discards one more line, exactly as the loop body of
`_skiplines_title` does. -/
def skiplinesTitleGo :
    List (List Char) → ℕ → ℕ → ℕ → Option (List (List Char)) →
      Option (List (List Char)) × List (List Char)
  | f, 0, _, _, title => (title, f)
  | f, Nat.succ n, i, t, title =>
    if i = t then
      let p := readline f
      skiplinesTitleGo (readline p.2).2 n (i + 1) t
        (some ((pySplitOnChar '|' (pyStrip p.1)).map pyStrip))
    else
      skiplinesTitleGo (readline f).2 n (i + 1) t title

/-- Model of `_skiplines_title` (RadTran.py lines 218-224).  A `none` title
corresponds to Python's `NameError` when the title offset is never reached;
every call in the repository passes `0 ≤ t < n`. -/
def skiplines_title (f : List (List Char)) (n t : ℕ) :
    Option (List (List Char)) × List (List Char) :=
  skiplinesTitleGo f n 0 t none

/-- Failure of the table scanner: the table marker was never found before the
stream ran out.  (On an exhausted stream the Python loop at RadTran.py lines
231-234 keeps reading the end-of-stream empty string forever; per the spec's
error model this exhaustion is the `TableNotFound` end-of-stream failure.) -/
inductive TableError where
  | tableNotFound
deriving DecidableEq

/-- The marker-scanning loop of `_match_table` (RadTran.py lines 231-234). -/
def findTableStart (start_idstr : List Char) :
    List (List Char) → Except TableError (List (List Char))
  | [] => .error .tableNotFound
  | l :: ls => if pyStartsWith l start_idstr then .ok ls else findTableStart start_idstr ls

/-- The data-collection loop of `_match_table` (RadTran.py lines 237-244):
accumulate lines with `|` characters removed until a line starts with `" --"`
or `"T"`.  (At end of stream the Python loop would spin on the empty string;
the model ends the block there, a case no in-repository stream reaches.) -/
def collectRows : List (List Char) → List (List Char) × List (List Char)
  | [] => ([], [])
  | l :: ls =>
    if pyStartsWith l (" --".data) then ([], ls)
    else if pyStartsWith l ("T".data) then ([], ls)
    else
      let r := collectRows ls
      (pyReplace l ("|".data) [] :: r.1, r.2)

/-- Model of `_match_table` (RadTran.py lines 227-246), parameterized by
`gft`, the external `np.genfromtxt` primitive that parses the collected block
into a numeric matrix (the array library is outside the modeled system). -/
def match_table (gft : List (List Char) → List (List ℚ)) (f : List (List Char))
    (start_idstr : List Char) (nheader_rows header_row : ℕ) :
    Except TableError ((Option (List (List Char)) × List (List ℚ)) × List (List Char)) :=
  match findTableStart start_idstr f with
  | .error e => .error e
  | .ok f2 =>
    let tp := skiplines_title f2 nheader_rows header_row
    let pr := collectRows tp.2
    .ok ((tp.1, gft pr.1), pr.2)

/-- One record of the wavelength grid built by `_get_wavelengths`:
output wavelength, internal wavelength (the `wvl` coordinate), weight. -/
structure WvlEntry where
  OutputWVL : ℚ
  wvl : ℚ
  Weights : ℚ
deriving DecidableEq

/-- Failure of the wavelength grid reader. -/
inductive WglError where
  | wavelengthGridParseError
deriving DecidableEq

/-- The marker-scanning loop of `_get_wavelengths` (RadTran.py lines
277-281); on success also reads the following count line.  The error carries
the remaining stream (where the cursor stopped), which `_read_verbose` prints
as its diagnostic.  (As with the table scanner, the Python loop spins forever
once the stream is exhausted; exhaustion is modeled as the parse failure.) -/
def findWvlStart : List (List Char) →
    Except (WglError × List (List Char)) (List Char × List (List Char))
  | [] => .error (.wavelengthGridParseError, [])
  | l :: ls =>
    if pyStartsWith l (" ... calling setup_rte_wlgrid()".data) then .ok (readline ls)
    else findWvlStart ls

/-- Model of `int(line.strip().split(' ')[0])` from RadTran.py line 280. -/
def parseCount (line : List Char) : Option ℤ :=
  pyInt? ((pySplitOnChar ' ' (pyStrip line)).headD [])

/-- One wavelength row (RadTran.py lines 285-286): strip the line, split on
`|`, strip each field and remove the `" nm"` suffix, convert to float. -/
def parseWvlLine (line : List Char) : Option (List ℚ) :=
  ((pySplitOnChar '|' (pyStrip line)).map
    (fun a => pyReplace (pyStrip a) (" nm".data) [])).mapM pyFloat?

/-- The row-reading loop of `_get_wavelengths` (RadTran.py lines 284-286); a
row that fails float conversion raises, with the cursor just past it. -/
def readWvlRows : ℕ → List (List Char) →
    Except (WglError × List (List Char)) (List (List ℚ) × List (List Char))
  | 0, f => .ok ([], f)
  | Nat.succ n, f =>
    let p := readline f
    match parseWvlLine p.1 with
    | none => .error (.wavelengthGridParseError, p.2)
    | some row =>
      match readWvlRows n p.2 with
      | .error e => .error e
      | .ok r => .ok (row :: r.1, r.2)

/-- Builds one `WvlEntry` from a parsed row, as `wavelengths[:, 0]`,
`[:, 1]`, `[:, 2]` of RadTran.py lines 288-291 select its columns; a row
with fewer than three fields makes that indexing raise. -/
def rowToEntry : List ℚ → Option WvlEntry
  | a :: b :: c :: _ => some ⟨a, b, c⟩
  | _ => none

/-- Model of `_get_wavelengths` (RadTran.py lines 275-291).  Every failure
mode — marker absent, unparsable count, unparsable or missing rows, or no
rows at all (indexing an empty array raises) — is an exception escaping the
Python function, modeled as the wavelength-grid parse failure carrying the
stream position reached. -/
def get_wavelengths (f : List (List Char)) :
    Except (WglError × List (List Char)) (List WvlEntry × List (List Char)) :=
  match findWvlStart f with
  | .error e => .error e
  | .ok (countLine, f2) =>
    match parseCount countLine with
    | none => .error (.wavelengthGridParseError, f2)
    | some number =>
      let f3 := skiplines f2 1
      match readWvlRows number.toNat f3 with
      | .error e => .error e
      | .ok (rows, f4) =>
        match rows.mapM rowToEntry with
        | none => .error (.wavelengthGridParseError, f4)
        | some entries =>
          if entries.isEmpty then .error (.wavelengthGridParseError, f4)
          else .ok (entries, f4)

/-- Model of `np.unique` on a one-dimensional array: the ascending list of
distinct values. -/
def npUnique (l : List ℚ) : List ℚ :=
  l.dedup.insertionSort (fun a b => a ≤ b)

/-- Model of `_map_to_outputwvl` (RadTran.py lines 338-349), generic over the
per-wavelength slice type `α` (the numpy array container is an external
primitive): `zero` is the zero slice `np.zeros` allocates, `add` the
elementwise `+=`, `smul` the scaling by a weight.  Each grid entry adds its
weighted slice at every output-axis position equal to its output wavelength
(`np.where` on the deduplicated axis: one position, or none — silently — if
the value is absent). -/
def mapToOutputwvl {α : Type} (zero : α) (add : α → α → α) (smul : ℚ → α → α)
    (wavelengths : List WvlEntry) (data : List α) : List α :=
  let output_wvl := npUnique (wavelengths.map (fun e => e.OutputWVL))
  (wavelengths.zip data).foldl
    (fun opdata p =>
      List.zipWith (fun a v => if a = p.1.OutputWVL then add v (smul p.1.Weights p.2) else v)
        output_wvl opdata)
    (output_wvl.map (fun _ => zero))

/-- Elementwise sum of two equally-shaped numeric matrices. -/
def matAdd (A B : List (List ℚ)) : List (List ℚ) :=
  List.zipWith (List.zipWith (fun a b => a + b)) A B

/-- A matrix scaled by a rational weight. -/
def matSMul (c : ℚ) (A : List (List ℚ)) : List (List ℚ) :=
  A.map (fun r => r.map (fun x => c * x))

/-- Model of `np.zeros` at the shape of one slice of a stacked table. -/
def matZero (data : List (List (List ℚ))) : List (List ℚ) :=
  (data.headD []).map (fun r => r.map (fun _ => (0 : ℚ)))

/-- One labeled 3-D table as assembled by `_read_table`: variable labels, the
`wvl` coordinate, and the stacked (wavelength x layer x variable) data. -/
structure TableDataset where
  labels : List String
  wvl : List ℚ
  data : List (List (List ℚ))

/-- The scanning loop of `_read_table` (RadTran.py lines 251-258): one
`_match_table` call per internal wavelength, matrices stacked in reading
order. -/
def scanTables (gft : List (List Char) → List (List ℚ)) (start_idstr : List Char) :
    ℕ → List (List Char) → Except TableError (List (List (List ℚ)) × List (List Char))
  | 0, f => .ok ([], f)
  | Nat.succ n, f =>
    match match_table gft f start_idstr 4 2 with
    | .error e => .error e
    | .ok (tp, f2) =>
      match scanTables gft start_idstr n f2 with
      | .error e => .error e
      | .ok r => .ok (tp.2 :: r.1, r.2)

/-- Model of `_read_table` (RadTran.py lines 249-272): scan one table per
internal wavelength, then either regrid onto the deduplicated output
wavelengths or keep the internal-wavelength coordinate. -/
def read_table (gft : List (List Char) → List (List ℚ)) (f : List (List Char))
    (start_idstr : List Char) (labels : List String) (wavelengths : List WvlEntry)
    (regrid : Bool) : Except TableError (TableDataset × List (List Char)) :=
  match scanTables gft start_idstr wavelengths.length f with
  | .error e => .error e
  | .ok (optprop, f2) =>
    if regrid then
      .ok ({ labels := labels,
             wvl := npUnique (wavelengths.map (fun e => e.OutputWVL)),
             data := mapToOutputwvl (matZero optprop) matAdd matSMul wavelengths optprop },
           f2)
    else
      .ok ({ labels := labels, wvl := wavelengths.map (fun e => e.wvl), data := optprop }, f2)

/-- The scalar/atmospheric profile table of `_read_verbose`, relabeled by
column (RadTran.py lines 304-310). -/
structure ProfileDataset where
  labels : List String
  data : List (List ℚ)

def proflabels : List String :=
  ["lc", "z", "p", "T", "air", "o3", "o2", "h2o", "co2", "no2", "o4"]

def gaslabels : List String :=
  ["lc", "z", "rayleigh_dtau", "mol_abs", "o3", "o2", "h2o", "co2", "no2", "bro",
   "oclo", "hcho", "o4", "so2", "ch4", "n2o", "co", "n2"]

def redistlabels : List String :=
  ["lc", "z", "o3", "o2", "co2", "no2", "bro", "oclo", "hcho", "wc.dtau", "ic.dtau"]

def optproplabels : List String :=
  ["lc", "z", "rayleigh_dtau", "aer_sca", "aer_abs", "aer_asy", "wc_sca", "wc_abs",
   "wc_asy", "ic_sca", "ic_abs", "ic_asy", "ff", "g1", "g2", "f", "mol_abs"]

/-- The bundle returned by a successful `_read_verbose` (RadTran.py lines
331-335). -/
structure VerboseResult where
  wavelengths : List WvlEntry
  profiles : ProfileDataset
  gases : TableDataset
  redist : TableDataset
  optprop : TableDataset

/-- Model of `_read_verbose` (RadTran.py lines 294-335): the `try` block
wraps only the wavelength-grid read; on its failure the function prints a
diagnostic line followed by the next ten `readline` results (empty strings
past the end of the stream) and returns `None`.  Failures in the body after a
successful grid read propagate as exceptions.  The first component is
everything printed. -/
def read_verbose (gft : List (List Char) → List (List ℚ)) (f : List (List Char))
    (regrid : Bool) : List (List Char) × Except TableError (Option VerboseResult) :=
  match get_wavelengths f with
  | .error e =>
    (("Readin of verbose file failed.".data) :: (List.range 10).map (fun i => e.2.getD i []),
     .ok none)
  | .ok (wavelengths, f1) =>
    ([],
      match match_table gft f1 ("*** Scaling profiles".data) 4 1 with
      | .error e => .error e
      | .ok (prof, f2) =>
        match read_table gft f2 ("*** setup_gases".data) gaslabels wavelengths regrid with
        | .error e => .error e
        | .ok (gases, f3) =>
          match read_table gft f3 ("*** setup_redistribute".data) redistlabels
              wavelengths regrid with
          | .error e => .error e
          | .ok (redist, f4) =>
            match read_table gft f4 ("*** optical_properties".data) optproplabels
                wavelengths regrid with
            | .error e => .error e
            | .ok (optprop, _) =>
              .ok (some { wavelengths := wavelengths,
                          profiles := { labels := proflabels, data := prof.2 },
                          gases := gases, redist := redist, optprop := optprop }))

theorem autoformat_def (value : ℚ) (maxchar : ℕ) (rp : Bool) :
    autoformat value maxchar rp =
      { warnings := (autoformatCore value maxchar rp).1,
        result :=
          if (renderValue (autoformatCore value maxchar rp).2.1
                (autoformatCore value maxchar rp).2.2 maxchar rp).length > maxchar
          then .error .resultTooLong
          else .ok (renderValue (autoformatCore value maxchar rp).2.1
                (autoformatCore value maxchar rp).2.2 maxchar rp) } := rfl

/-- C3: for every representable value and width, whenever `_autoformat`
returns a string it has length at most `maxchar`; and whenever the rendered
string would still exceed `maxchar`, `_autoformat` raises the fatal
`RuntimeError("Result too long!")` instead of returning. -/
theorem autoformat_length_le (value : ℚ) (maxchar : ℕ) (require_point : Bool) :
    (∀ s, (autoformat value maxchar require_point).result = .ok s → s.length ≤ maxchar)
    ∧ ((renderValue (autoformatCore value maxchar require_point).2.1
          (autoformatCore value maxchar require_point).2.2 maxchar require_point).length
            > maxchar →
        (autoformat value maxchar require_point).result = .error .resultTooLong) := by
  rw [autoformat_def]
  constructor
  · intro s hs
    simp only at hs
    split at hs
    · exact absurd hs (by simp)
    · rename_i hle
      have heq : renderValue (autoformatCore value maxchar require_point).2.1
          (autoformatCore value maxchar require_point).2.2 maxchar require_point = s := by
        injection hs
      rw [← heq]
      omega
  · intro hgt
    simp only
    rw [if_pos hgt]

/-- Witness for C3 at `12.345` (returns `"12.3450"`, length 7 ≤ 7) and at
`-1/2` (rendering is 8 characters wide, so the formatter errors). -/
theorem autoformat_length_le_witness :
    ("12.3450".data).length ≤ 7
    ∧ (autoformat (mkRat (-1) 2) 7 true).result = .error .resultTooLong :=
  ⟨(autoformat_length_le (mkRat 2469 200) 7 true).1 (("12.3450".data)) (by decide),
   (autoformat_length_le (mkRat (-1) 2) 7 true).2 (by decide)⟩

theorem pyFormatFixed_neg_length (v : ℚ) (hv : v < 0) (n : ℕ) (hn : n ≠ 0) :
    n + 3 ≤ (pyFormatFixed v n).length := by
  rw [pyFormatFixed]
  simp only [if_pos hv, if_neg hn, List.length_cons, List.length_append, padZeros,
    List.length_replicate]
  have h1 := List.length_pos.mpr
    (natDigits_ne_nil ((roundHalfEven (qmul |v| (mkRat (10 ^ n) 1))).toNat / 10 ^ n))
  omega

theorem renderValue_neg_default (v : ℚ) (hv : v < 0) :
    8 ≤ (renderValue v 1 7 true).length := by
  have hlen := pyFormatFixed_neg_length v hv 5 (by omega)
  rw [renderValue]
  have hcond : (1 : ℤ) < ((7 : ℕ) : ℤ) - 2 := by norm_num
  rw [if_pos hcond]
  have htonat : (((7 : ℕ) : ℤ) - 1 - 1).toNat = 5 := by decide
  rw [htonat]
  split
  · rw [List.length_append]
    have : (".0".data).length = 2 := by decide
    omega
  · exact hlen

/-- C9: at the default width (`maxchar = 7`, `require_point = True`) every
strictly negative value makes `_autoformat` raise the fatal
`RuntimeError("Result too long!")` — the sign character is not budgeted, so
the rendering `-d.ddddd` is always at least 8 characters wide. -/
theorem autoformat_negative_always_fails (value : ℚ) (h : value < 0) :
    (autoformat value 7 true).result = .error .resultTooLong := by
  have hcore : autoformatCore value 7 true = ([], (value, 1)) := by
    rw [autoformatCore, value_sig_figs]
    rw [if_neg (not_lt.mpr (le_of_lt h))]
    norm_num
  rw [autoformat_def, hcore]
  simp only
  rw [if_pos (by have := renderValue_neg_default value h; omega)]

/-- Witness for C9 at `-1/2`. -/
theorem autoformat_negative_always_fails_witness :
    (mkRat (-1) 2 : ℚ) < 0
    ∧ (autoformat (mkRat (-1) 2) 7 true).result = .error .resultTooLong :=
  ⟨by decide, autoformat_negative_always_fails (mkRat (-1) 2) (by decide)⟩

/-- C5: when the digit count exceeds the integer budget, `_autoformat` warns
"Value too large to format" and formats the clamped value
`10 ^ (maxchar - 2) - 1` with `intchars = maxchar - 2`; when the value is
positive and its digit count is at most `2 - maxchar` (and the overflow
branch was not taken — the source uses `elif`), it warns
"Value too small to format" and formats the clamped value
`10 ^ (2 - maxchar)` treated as one integer digit.  Stated for the default
`require_point = True`, under which the integer budget is `maxchar - 2`. -/
theorem autoformat_clamp (value : ℚ) (maxchar : ℕ) :
    (value_sig_figs value > (maxchar : ℤ) - 2 →
      autoformat value maxchar true =
        { warnings := [("Value too large to format".data)],
          result :=
            if (renderValue ((10 : ℚ) ^ ((maxchar : ℤ) - 2) - 1) ((maxchar : ℤ) - 2)
                  maxchar true).length > maxchar
            then .error .resultTooLong
            else .ok (renderValue ((10 : ℚ) ^ ((maxchar : ℤ) - 2) - 1)
                  ((maxchar : ℤ) - 2) maxchar true) })
    ∧ (0 < value →
       ¬ value_sig_figs value > (maxchar : ℤ) - 2 →
       value_sig_figs value ≤ 2 - (maxchar : ℤ) →
        autoformat value maxchar true =
          { warnings := [("Value too small to format".data)],
            result :=
              if (renderValue ((10 : ℚ) ^ ((2 : ℤ) - (maxchar : ℤ))) 1 maxchar
                    true).length > maxchar
              then .error .resultTooLong
              else .ok (renderValue ((10 : ℚ) ^ ((2 : ℤ) - (maxchar : ℤ))) 1
                    maxchar true) }) := by
  constructor
  · intro hbig
    have hcore : autoformatCore value maxchar true =
        ([("Value too large to format".data)],
         (qsub (pow10 ((maxchar : ℤ) - 2)) 1, (maxchar : ℤ) - 2)) := by
      rw [autoformatCore]
      simp only [if_true]
      rw [if_pos hbig]
    rw [autoformat_def, hcore, qsub_eq, pow10_eq]
  · intro hpos hnotbig hsmall
    have hcore : autoformatCore value maxchar true =
        ([("Value too small to format".data)], (pow10 ((2 : ℤ) - (maxchar : ℤ)), 1)) := by
      rw [autoformatCore]
      simp only [if_true]
      rw [if_neg hnotbig, if_pos hsmall]
    rw [autoformat_def, hcore, pow10_eq]

/-- Witness for C5: `123456` overflows the default width and comes back as
the clamped `"99999.0"`; `1/1000000` underflows and comes back as the clamped
`"0.00001"`, each with its warning. -/
theorem autoformat_clamp_witness :
    (value_sig_figs (123456 : ℚ) > ((7 : ℕ) : ℤ) - 2
      ∧ autoformat (123456 : ℚ) 7 true =
          { warnings := [("Value too large to format".data)],
            result := .ok (("99999.0".data)) })
    ∧ (0 < (mkRat 1 1000000 : ℚ)
      ∧ value_sig_figs (mkRat 1 1000000) ≤ 2 - ((7 : ℕ) : ℤ)
      ∧ autoformat (mkRat 1 1000000) 7 true =
          { warnings := [("Value too small to format".data)],
            result := .ok (("0.00001".data)) }) := by
  have hv1 : (10 : ℚ) ^ (((7 : ℕ) : ℤ) - 2) - 1 = mkRat 99999 1 := by
    rw [show (((7 : ℕ) : ℤ) - 2) = ((5 : ℕ) : ℤ) by decide, zpow_natCast, Rat.mkRat_eq_div]
    norm_num
  have hv2 : (10 : ℚ) ^ ((2 : ℤ) - ((7 : ℕ) : ℤ)) = mkRat 1 100000 := by
    rw [show ((2 : ℤ) - ((7 : ℕ) : ℤ)) = -((5 : ℕ) : ℤ) by decide, zpow_neg, zpow_natCast,
      Rat.mkRat_eq_div]
    norm_num
  constructor
  · refine ⟨by decide, ?_⟩
    have h := (autoformat_clamp (123456 : ℚ) 7).1 (by decide)
    rw [hv1, show (((7 : ℕ) : ℤ) - 2) = 5 by decide] at h
    exact h.trans (by decide)
  · refine ⟨by decide, by decide, ?_⟩
    have h := (autoformat_clamp (mkRat 1 1000000) 7).2 (by decide) (by decide) (by decide)
    rw [hv2] at h
    exact h.trans (by decide)

theorem contains_dot_false (l : List Char) (h : ∀ c ∈ l, c ≠ '.') :
    l.contains '.' = false := by
  induction l with
  | nil => rfl
  | cons c cs ih =>
    have hc : c ≠ '.' := h c (List.mem_cons_self c cs)
    have hb : ('.' == c) = false := by
      rw [beq_eq_false_iff_ne]
      exact fun hh => hc hh.symm
    rw [List.contains_cons]
    simp only [hb, Bool.false_or]
    exact ih (fun x hx => h x (List.mem_cons_of_mem c hx))

/-- C4 (amended): when `intchars` leaves no room for fixed decimals (the
`intchars < maxchar - 2` test fails), `_autoformat` renders the value as a
bare integer **rounded to the nearest integer, ties to even** — Python's
`'{:.0f}'` rounds, it does not truncate — and appends `".0"` whenever a
decimal point is required (the bare rendering never contains one). -/
theorem renderValue_bare_integer (value : ℚ) (intchars : ℤ) (maxchar : ℕ)
    (require_point : Bool) (h : ¬ intchars < (maxchar : ℤ) - 2) :
    renderValue value intchars maxchar require_point =
      (if require_point then
        ((if value < 0 then ['-'] else []) ++ natDigits (roundHalfEven |value|).toNat)
          ++ (".0".data)
       else
        (if value < 0 then ['-'] else []) ++ natDigits (roundHalfEven |value|).toNat) := by
  have harg : qmul |value| (mkRat (10 ^ 0) 1) = |value| := by
    rw [pow_zero, mkRat_one_den, qmul_eq]
    push_cast
    rw [mul_one]
  have hfmt : pyFormatFixed value 0 =
      (if value < 0 then ['-'] else []) ++ natDigits (roundHalfEven |value|).toNat := by
    rw [pyFormatFixed]
    simp only [if_pos rfl, harg]
    split
    · rfl
    · simp
  have hchars : ∀ c ∈ pyFormatFixed value 0, c ≠ '.' := by
    rw [hfmt]
    intro c hc
    rcases List.mem_append.mp hc with h1 | h1
    · split at h1
      · simp at h1
        subst h1
        decide
      · simp at h1
    · exact natDigits_mem_ne_dot _ c h1
  have hsplit : pySplitDot (pyFormatFixed value 0) = pyFormatFixed value 0 := by
    rw [pySplitDot, List.takeWhile_eq_self_iff]
    intro c hc
    simp [hchars c hc]
  have hcont : (pyFormatFixed value 0).contains '.' = false :=
    contains_dot_false _ hchars
  rw [renderValue]
  rw [if_neg h, hsplit, hcont]
  cases require_point
  · simp [hfmt]
  · simp [hfmt]

/-- Counterexample for C4 as stated: at `12345.6` with the default width the
code renders the **rounded** bare integer `"12346.0"`, not the truncated
`"12345.0"` the claim describes (`⌊12345.6⌋ = 12345`). -/
theorem renderValue_bare_integer_counterexample :
    (autoformat (mkRat 61728 5) 7 true).result = .ok (("12346.0".data))
    ∧ natDigits ((⌊(mkRat 61728 5 : ℚ)⌋).toNat) ++ (".0".data) = ("12345.0".data)
    ∧ ("12346.0".data) ≠ ("12345.0".data) := by
  refine ⟨by decide, by decide, by decide⟩

/-- Witness for C4 (amended) at `12345.6`, width 7: `intchars = 5` fails the
decimal-room test and the rendering is the round-half-even bare integer with
`".0"` appended. -/
theorem renderValue_bare_integer_witness :
    (¬ (5 : ℤ) < ((7 : ℕ) : ℤ) - 2)
    ∧ renderValue (mkRat 61728 5) 5 7 true = ("12346.0".data) := by
  refine ⟨by decide, ?_⟩
  have h := renderValue_bare_integer (mkRat 61728 5) 5 7 true (by decide)
  exact h.trans (by decide)

theorem stderr_fold_flagged (L : List (List Char)) :
    ∀ acc : List (List Char), L.foldl stderrStep (acc, true) = (acc ++ L, true) := by
  induction L with
  | nil => intro acc; simp
  | cons l ls ih =>
    intro acc
    rw [List.foldl_cons]
    have hstep : stderrStep (acc, true) l = (acc ++ [l], true) := by
      rw [stderrStep]
      simp
    rw [hstep, ih]
    simp

theorem stderr_fold_clean (L : List (List Char))
    (h : ∀ l ∈ L, pyStartsWith l ("Error".data) = false) :
    ∀ acc : List (List Char), L.foldl stderrStep (acc, false) = (acc, false) := by
  induction L with
  | nil => intro acc; rfl
  | cons l ls ih =>
    intro acc
    rw [List.foldl_cons]
    have hstep : stderrStep (acc, false) l = (acc, false) := by
      rw [stderrStep]
      simp [h l (List.mem_cons_self l ls)]
    rw [hstep]
    exact ih (fun x hx => h x (List.mem_cons_of_mem l hx)) acc

/-- C6: if some stderr line starts with the token `Error`, the run's error
check raises `ValueError` carrying the fixed banner followed by that line and
every subsequent line of the stream (it never returns successfully); if no
line starts with `Error`, no such error is raised. -/
theorem run_stderr_error_check (pre suf : List (List Char)) (l : List Char)
    (hpre : ∀ x ∈ pre, pyStartsWith x ("Error".data) = false)
    (hl : pyStartsWith l ("Error".data) = true) :
    checkStderr (pre ++ l :: suf) =
      .error (pyJoin (("UVSpec Error Message:\n".data) :: l :: suf))
    ∧ ∀ lines : List (List Char),
        (∀ x ∈ lines, pyStartsWith x ("Error".data) = false) →
          checkStderr lines = .ok () := by
  constructor
  · rw [checkStderr, scanStderr, List.foldl_append,
      stderr_fold_clean pre hpre [("UVSpec Error Message:\n".data)], List.foldl_cons]
    have hstep : stderrStep ([("UVSpec Error Message:\n".data)], false) l =
        ([("UVSpec Error Message:\n".data), l], true) := by
      rw [stderrStep]
      simp [hl]
    rw [hstep, stderr_fold_flagged]
    simp
  · intro lines hclean
    rw [checkStderr, scanStderr, stderr_fold_clean lines hclean]
    rfl

/-- Witness for C6: a stream with `"Error: bad altitude"` fails with the
banner plus the captured tail; a clean stream passes. -/
theorem run_stderr_error_check_witness :
    checkStderr [("x\n".data), ("Error: bad altitude\n".data), ("more\n".data)] =
      .error (pyJoin (("UVSpec Error Message:\n".data) ::
        ("Error: bad altitude\n".data) :: [("more\n".data)]))
    ∧ checkStderr [("fine\n".data)] = .ok () :=
  ⟨(run_stderr_error_check [("x\n".data)] [("more\n".data)]
      (("Error: bad altitude\n".data)) (by decide) (by decide)).1,
   (run_stderr_error_check [] [] (("Error: x".data)) (by decide) (by decide)).2
     [("fine\n".data)] (by decide)⟩

theorem findTableStart_not_found (marker : List Char) (f : List (List Char))
    (h : ∀ l ∈ f, pyStartsWith l marker = false) :
    findTableStart marker f = .error .tableNotFound := by
  induction f with
  | nil => rfl
  | cons l ls ih =>
    rw [findTableStart]
    rw [if_neg (by simp [h l (List.mem_cons_self l ls)])]
    exact ih (fun x hx => h x (List.mem_cons_of_mem l hx))

theorem findWvlStart_not_found (f : List (List Char))
    (h : ∀ l ∈ f, pyStartsWith l (" ... calling setup_rte_wlgrid()".data) = false) :
    findWvlStart f = .error (.wavelengthGridParseError, []) := by
  induction f with
  | nil => rfl
  | cons l ls ih =>
    rw [findWvlStart]
    rw [if_neg (by simp [h l (List.mem_cons_self l ls)])]
    exact ih (fun x hx => h x (List.mem_cons_of_mem l hx))

/-- C2: when the stream is exhausted before any line starting with the marker
is found, the table scanner fails with the typed `TableNotFound` end-of-stream
failure, and likewise the wavelength grid reader fails with the typed
`WavelengthGridParseError` when its marker is never found — neither produces
a silent empty result.  (The Python loops spin on the end-of-stream empty
string; per the spec's error model this exhaustion is the typed failure.) -/
theorem scanner_marker_not_found (gft : List (List Char) → List (List ℚ))
    (f g : List (List Char)) (marker : List Char) (nheader_rows header_row : ℕ)
    (hf : ∀ l ∈ f, pyStartsWith l marker = false)
    (hg : ∀ l ∈ g, pyStartsWith l (" ... calling setup_rte_wlgrid()".data) = false) :
    match_table gft f marker nheader_rows header_row = .error .tableNotFound
    ∧ get_wavelengths g = .error (.wavelengthGridParseError, []) := by
  constructor
  · rw [match_table, findTableStart_not_found marker f hf]
  · rw [get_wavelengths, findWvlStart_not_found g hg]

/-- Witness for C2: a two-line stream without the table marker, and a stream
without the wavelength-grid marker. -/
theorem scanner_marker_not_found_witness :
    match_table (fun _ => []) [("foo".data), ("bar".data)] ("*** setup_gases".data) 4 2 =
      .error .tableNotFound
    ∧ get_wavelengths [("no grid here".data)] =
      .error (.wavelengthGridParseError, []) :=
  scanner_marker_not_found (fun _ => []) [("foo".data), ("bar".data)]
    [("no grid here".data)] ("*** setup_gases".data) 4 2 (by decide) (by decide)

/-- C7: whenever the wavelength-grid read fails, `_read_verbose` swallows the
failure: it prints the diagnostic line followed by the next ten lines of the
remaining stream (empty strings past its end) and returns `None` for the
whole verbose bundle — no structured error is propagated. -/
theorem read_verbose_grid_failure (gft : List (List Char) → List (List ℚ))
    (f rest : List (List Char)) (e : WglError) (regrid : Bool)
    (h : get_wavelengths f = .error (e, rest)) :
    read_verbose gft f regrid =
      (("Readin of verbose file failed.".data) ::
        (List.range 10).map (fun i => rest.getD i []),
       .ok none) := by
  rw [read_verbose, h]

/-- Witness for C7: on the empty stream the grid read fails and
`_read_verbose` prints the diagnostic plus ten empty lines and yields `None`. -/
theorem read_verbose_grid_failure_witness :
    get_wavelengths ([] : List (List Char)) = .error (.wavelengthGridParseError, [])
    ∧ read_verbose (fun _ => []) [] true =
        (("Readin of verbose file failed.".data) ::
          (List.range 10).map (fun i => ([] : List (List Char)).getD i []),
         .ok none) :=
  ⟨by decide,
   read_verbose_grid_failure (fun _ => []) [] [] .wavelengthGridParseError true (by decide)⟩

/-- C8: supplying an ice water content forces the stored cloud to the ice
variant and supplying a liquid water content (with no iwc) forces the liquid
variant, whatever `type` was passed; the stored profile is always exactly two
points: altitudes `[height, base_height]` (with `base_height` computed as
`height - thickness` when only a thickness is given), water content
`[0, value]` (the supplied content, or the od-derived water path when `od` is
given), and effective radius `[0, re]`. -/
theorem add_cloud_forces_type (type : String) (h b r w t : ℚ)
    (thickness od : Option ℚ) (lwc : Option ℚ) :
    (add_cloud type (some h) (some b) thickness lwc (some w) (some r) od
      = .ok (none, some ⟨[h, b],
          [some 0, match od with
                   | some o => some (2 / 3 * o * r * (1 / 1000))
                   | none => some w],
          [0, r]⟩))
    ∧ (add_cloud type (some h) (some b) thickness (some w) none (some r) od
      = .ok (some ⟨[h, b],
          [some 0, match od with
                   | some o => some (2 / 3 * o * r * (1 / 1000))
                   | none => some w],
          [0, r]⟩, none))
    ∧ (add_cloud type (some h) none (some t) lwc (some w) (some r) od
      = .ok (none, some ⟨[h, h - t],
          [some 0, match od with
                   | some o => some (2 / 3 * o * r * (1 / 1000))
                   | none => some w],
          [0, r]⟩)) := by
  refine ⟨?_, ?_, ?_⟩ <;> cases od <;> cases lwc <;> simp [add_cloud]

theorem dictGet_cons (p : String × String) (ds : List (String × String)) (k : String) :
    dictGet? (p :: ds) k = if p.1 = k then some p.2 else dictGet? ds k := by
  by_cases hp : p.1 = k
  · rw [dictGet?, List.find?_cons_of_pos _ (by simp [hp]), if_pos hp]
    rfl
  · rw [dictGet?, List.find?_cons_of_neg _ (by simp [hp]), if_neg hp]
    rfl

theorem dictGet_set_self (d : List (String × String)) (k v : String) :
    dictGet? (dictSet d k v) k = some v := by
  rw [dictSet]
  split
  · rename_i hany
    rw [List.any_eq_true] at hany
    induction d with
    | nil => simp at hany
    | cons p ds ih =>
      simp only [List.map_cons]
      by_cases hp : p.1 = k
      · rw [dictGet_cons]
        simp [hp]
      · rw [dictGet_cons]
        rw [if_neg (by simp [hp] : ¬ (if p.1 = k then (p.1, v) else p).1 = k)]
        refine ih ?_
        rcases hany with ⟨a, ha, hak⟩
        rcases List.mem_cons.mp ha with rfl | ha2
        · simp at hak
          exact absurd hak hp
        · exact ⟨a, ha2, hak⟩
  · rename_i hany
    induction d with
    | nil =>
      rw [List.nil_append, dictGet_cons]
      simp
    | cons p ds ih =>
      rw [List.cons_append, dictGet_cons]
      have hp : ¬ p.1 = k := by
        intro hc
        exact hany (List.any_eq_true.mpr ⟨p, List.mem_cons_self p ds, by simp [hc]⟩)
      rw [if_neg hp]
      refine ih ?_
      intro hc
      rcases List.any_eq_true.mp hc with ⟨a, ha, hak⟩
      exact hany (List.any_eq_true.mpr ⟨a, List.mem_cons_of_mem p ha, hak⟩)

theorem dictGet_set_other (d : List (String × String)) (k v k' : String) (h : k' ≠ k) :
    dictGet? (dictSet d k v) k' = dictGet? d k' := by
  rw [dictSet]
  split
  · rename_i hany
    clear hany
    induction d with
    | nil => rfl
    | cons p ds ih =>
      simp only [List.map_cons]
      rw [dictGet_cons, dictGet_cons]
      have hhead : (if p.1 = k then (p.1, v) else p).1 = p.1 := by
        split <;> rfl
      rw [hhead]
      by_cases hpk' : p.1 = k'
      · have hpk : ¬ p.1 = k := fun hc => h (by rw [← hpk', hc])
        rw [if_pos hpk', if_pos hpk', if_neg hpk]
      · rw [if_neg hpk', if_neg hpk', ih]
  · rename_i hany
    clear hany
    induction d with
    | nil =>
      rw [List.nil_append, dictGet_cons]
      rw [if_neg (fun hc => h hc.symm)]
    | cons p ds ih =>
      rw [List.cons_append, dictGet_cons, dictGet_cons, ih]

theorem dictGet_del_self (d : List (String × String)) (k : String) :
    dictGet? (dictDel d k) k = none := by
  rw [dictDel, dictGet?, List.find?_eq_none.mpr]
  · rfl
  · intro a ha
    have := List.of_mem_filter ha
    simp at this
    simp [this]

theorem dictGet_del_other (d : List (String × String)) (k k' : String) (h : k' ≠ k) :
    dictGet? (dictDel d k) k' = dictGet? d k' := by
  rw [dictDel]
  induction d with
  | nil => rfl
  | cons p ds ih =>
    by_cases hpk : p.1 = k
    · rw [List.filter_cons_of_neg (by simp [hpk]), dictGet_cons]
      have hnk' : ¬ p.1 = k' := fun hc => h (by rw [← hc, hpk])
      rw [if_neg hnk', ih]
    · rw [List.filter_cons_of_pos (by simp [hpk]), dictGet_cons, dictGet_cons, ih]

/-- C10: after a successful `verbose=True` run, the option map holds
`quiet -> ""` and no `verbose` key, and every caller-set entry other than the
mode keys (`verbose`, `quiet`) and the run-scoped cloud-file keys
(`wc_file 1D`, `ic_file 1D`) is unchanged. -/
theorem run_verbose_options_effect (opts : List (String × String)) (hasCloud hasIce : Bool)
    (wcName icName : String) :
    dictGet? (runOptionsVerbose opts hasCloud hasIce wcName icName) ("quiet") = some ("")
    ∧ dictGet? (runOptionsVerbose opts hasCloud hasIce wcName icName) ("verbose") = none
    ∧ ∀ k, k ≠ "quiet" → k ≠ "verbose" → k ≠ "wc_file 1D" → k ≠ "ic_file 1D" →
        dictGet? (runOptionsVerbose opts hasCloud hasIce wcName icName) k =
          dictGet? opts k := by
  refine ⟨?_, ?_, ?_⟩
  · simp only [runOptionsVerbose]
    exact dictGet_set_self _ _ _
  · simp only [runOptionsVerbose]
    rw [dictGet_set_other _ _ _ _ (by decide), dictGet_del_self]
  · intro k h1 h2 h3 h4
    simp only [runOptionsVerbose]
    cases hasCloud with
    | false =>
      cases hasIce with
      | false =>
        simp only [Bool.false_eq_true, if_false]
        rw [dictGet_set_other _ _ _ _ h1, dictGet_del_other _ _ _ h2,
          dictGet_set_other _ _ _ _ h2, dictGet_del_other _ _ _ h1]
      | true =>
        simp only [Bool.false_eq_true, eq_self_iff_true, if_true, if_false]
        rw [dictGet_set_other _ _ _ _ h1, dictGet_del_other _ _ _ h2,
          dictGet_del_other _ _ _ h4, dictGet_set_other _ _ _ _ h2,
          dictGet_del_other _ _ _ h1, dictGet_set_other _ _ _ _ h4]
    | true =>
      cases hasIce with
      | false =>
        simp only [Bool.false_eq_true, eq_self_iff_true, if_true, if_false]
        rw [dictGet_set_other _ _ _ _ h1, dictGet_del_other _ _ _ h2,
          dictGet_del_other _ _ _ h3, dictGet_set_other _ _ _ _ h2,
          dictGet_del_other _ _ _ h1, dictGet_set_other _ _ _ _ h3]
      | true =>
        simp only [eq_self_iff_true, if_true]
        rw [dictGet_set_other _ _ _ _ h1, dictGet_del_other _ _ _ h2,
          dictGet_del_other _ _ _ h4, dictGet_del_other _ _ _ h3,
          dictGet_set_other _ _ _ _ h2, dictGet_del_other _ _ _ h1,
          dictGet_set_other _ _ _ _ h4, dictGet_set_other _ _ _ _ h3]

/-- Witness for C10 on a concrete option map with a liquid cloud: `quiet` is
set to the empty string, `verbose` is gone, and `atmosphere_file` is
untouched. -/
theorem run_verbose_options_effect_witness :
    dictGet? (runOptionsVerbose [("atmosphere_file", "afglus.dat"), ("quiet", "")]
      true false ("/tmp/wc") ("")) ("quiet") = some ("")
    ∧ dictGet? (runOptionsVerbose [("atmosphere_file", "afglus.dat"), ("quiet", "")]
      true false ("/tmp/wc") ("")) ("verbose") = none
    ∧ dictGet? (runOptionsVerbose [("atmosphere_file", "afglus.dat"), ("quiet", "")]
      true false ("/tmp/wc") ("")) ("atmosphere_file") =
      dictGet? [("atmosphere_file", "afglus.dat"), ("quiet", "")] ("atmosphere_file") := by
  obtain ⟨h1, h2, h3⟩ := run_verbose_options_effect
    [("atmosphere_file", "afglus.dat"), ("quiet", "")] true false ("/tmp/wc") ("")
  exact ⟨h1, h2, h3 ("atmosphere_file") (by decide) (by decide) (by decide) (by decide)⟩

/-- Kernel-computable sum of two rationals; certified by `qadd_eq`. -/
def qadd (a b : ℚ) : ℚ :=
  mkRat (a.num * b.den + b.num * a.den) (a.den * b.den)

theorem qadd_eq (a b : ℚ) : qadd a b = a + b := by
  rw [qadd, Rat.mkRat_eq_div]
  push_cast
  rw [mul_comm ((b.num : ℚ)) ((a.den : ℚ)),
    ← div_add_div _ _ (by exact_mod_cast a.den_nz) (by exact_mod_cast b.den_nz),
    Rat.num_div_den, Rat.num_div_den]

/-- The weighted sum the specification prescribes for one output-axis value
`a`: over every (grid entry, slice) pair whose output wavelength equals `a`
(exact equality), sum the `Weights`-scaled slices.  (A definition following
the spec's words, to be compared with `mapToOutputwvl`.) -/
def specWeightedSum {α : Type} (zero : α) (add : α → α → α) (smul : ℚ → α → α)
    (L : List (WvlEntry × α)) (a : ℚ) : α :=
  ((L.filter (fun p => p.1.OutputWVL = a)).map (fun p => smul p.1.Weights p.2)).foldr add zero

theorem specWeightedSum_cons {α : Type} (zero : α) (add : α → α → α) (smul : ℚ → α → α)
    (p : WvlEntry × α) (L : List (WvlEntry × α)) (a : ℚ) :
    specWeightedSum zero add smul (p :: L) a =
      (if p.1.OutputWVL = a then
        add (smul p.1.Weights p.2) (specWeightedSum zero add smul L a)
       else specWeightedSum zero add smul L a) := by
  rw [specWeightedSum, List.filter_cons]
  by_cases hpa : p.1.OutputWVL = a
  · rw [if_pos (by simp [hpa]), if_pos hpa, List.map_cons, List.foldr_cons]
    rfl
  · rw [if_neg (by simp [hpa]), if_neg hpa]
    rfl

theorem npUnique_sorted_lt (l : List ℚ) : (npUnique l).Sorted (fun a b => a < b) := by
  have hs : (npUnique l).Sorted (fun a b => a ≤ b) := List.sorted_insertionSort _ _
  have hn : (npUnique l).Nodup :=
    ((List.perm_insertionSort _ _).nodup_iff).mpr (List.nodup_dedup l)
  exact hs.lt_of_le hn

theorem npUnique_mem (l : List ℚ) (q : ℚ) : q ∈ npUnique l ↔ q ∈ l :=
  ((List.perm_insertionSort _ _).mem_iff).trans List.mem_dedup

theorem regrid_foldl {α : Type} (zero : α) (add : α → α → α) (smul : ℚ → α → α)
    (hz : ∀ x, add x zero = x)
    (ha : ∀ x y z, add (add x y) z = add x (add y z))
    (axis : List ℚ) :
    ∀ (L : List (WvlEntry × α)) (f : ℚ → α),
      L.foldl (fun opdata p =>
          List.zipWith (fun a v => if a = p.1.OutputWVL then add v (smul p.1.Weights p.2) else v)
            axis opdata)
        (axis.map f)
      = axis.map (fun a => add (f a) (specWeightedSum zero add smul L a)) := by
  intro L
  induction L with
  | nil =>
    intro f
    rw [List.foldl_nil]
    apply List.map_congr_left
    intro a _
    rw [specWeightedSum]
    simp only [List.filter_nil, List.map_nil, List.foldr_nil]
    exact (hz (f a)).symm
  | cons p L ih =>
    intro f
    rw [List.foldl_cons]
    have hstep :
        List.zipWith (fun a v => if a = p.1.OutputWVL then add v (smul p.1.Weights p.2) else v)
            axis (axis.map f)
          = axis.map (fun a =>
              if a = p.1.OutputWVL then add (f a) (smul p.1.Weights p.2) else f a) := by
      rw [List.zipWith_map_right, List.zipWith_same]
    rw [hstep, ih]
    apply List.map_congr_left
    intro a _
    by_cases hpa : p.1.OutputWVL = a
    · rw [if_pos hpa.symm, specWeightedSum_cons, if_pos hpa]
      exact ha _ _ _
    · rw [if_neg (fun hc => hpa hc.symm), specWeightedSum_cons, if_neg hpa]

/-- C1: `_map_to_outputwvl` produces a table whose leading axis is the
sorted, duplicate-free list of the grid's output wavelengths, and whose slice
at each axis value equals the sum, over every grid entry whose output
wavelength equals that value under exact equality, of the entry's weight
times the corresponding stacked slice; an entry matching no axis position
contributes nothing (which here is vacuous: the axis is built from the grid
itself, and the filtered sum records exactly the matching contributions). -/
theorem mapToOutputwvl_spec {α : Type} (zero : α) (add : α → α → α) (smul : ℚ → α → α)
    (hz : ∀ x, add x zero = x) (hz0 : ∀ x, add zero x = x)
    (ha : ∀ x y z, add (add x y) z = add x (add y z))
    (wavelengths : List WvlEntry) (data : List α)
    (hlen : data.length = wavelengths.length) :
    (npUnique (wavelengths.map (fun e => e.OutputWVL))).Sorted (fun a b => a < b)
    ∧ (∀ q, q ∈ npUnique (wavelengths.map (fun e => e.OutputWVL)) ↔
        q ∈ wavelengths.map (fun e => e.OutputWVL))
    ∧ mapToOutputwvl zero add smul wavelengths data
        = (npUnique (wavelengths.map (fun e => e.OutputWVL))).map
            (fun a => specWeightedSum zero add smul (wavelengths.zip data) a) := by
  refine ⟨npUnique_sorted_lt _, fun q => npUnique_mem _ q, ?_⟩
  rw [mapToOutputwvl]
  rw [regrid_foldl zero add smul hz ha _ (wavelengths.zip data) (fun _ => zero)]
  apply List.map_congr_left
  intro a _
  rw [hz0]

/-- Witness for C1 on the spec's example grid
`[(500,500,1/2), (500,501,1/2), (600,600,1)]` with all slices equal to one:
the regrid sums to `[1, 1]` over the output axis `[500, 600]`. -/
theorem mapToOutputwvl_spec_witness :
    ([mkRat 1 1, mkRat 1 1, mkRat 1 1] : List ℚ).length =
      ([⟨mkRat 500 1, mkRat 500 1, mkRat 1 2⟩, ⟨mkRat 500 1, mkRat 501 1, mkRat 1 2⟩,
        ⟨mkRat 600 1, mkRat 600 1, mkRat 1 1⟩] : List WvlEntry).length
    ∧ mapToOutputwvl (0 : ℚ) qadd qmul
        [⟨mkRat 500 1, mkRat 500 1, mkRat 1 2⟩, ⟨mkRat 500 1, mkRat 501 1, mkRat 1 2⟩,
         ⟨mkRat 600 1, mkRat 600 1, mkRat 1 1⟩]
        [mkRat 1 1, mkRat 1 1, mkRat 1 1] = [mkRat 1 1, mkRat 1 1] := by
  refine ⟨by decide, ?_⟩
  have h := (mapToOutputwvl_spec (0 : ℚ) qadd qmul
    (fun x => by simp only [qadd_eq]; exact add_zero x)
    (fun x => by simp only [qadd_eq]; exact zero_add x)
    (fun x y z => by simp only [qadd_eq]; exact add_assoc x y z)
    [⟨mkRat 500 1, mkRat 500 1, mkRat 1 2⟩, ⟨mkRat 500 1, mkRat 501 1, mkRat 1 2⟩,
     ⟨mkRat 600 1, mkRat 600 1, mkRat 1 1⟩]
    [mkRat 1 1, mkRat 1 1, mkRat 1 1] (by decide)).2.2
  exact h.trans (by decide)
